import Mathlib

/-! ext_atomic: a lock-based emulation of `std::atomic` for arbitrary value types

A shallow embedding of `ext_atomic.hpp`.

* `mutex_atomic T` is the class of the same name: the mutex `m` (a boolean,
  `true` while some `std::lock_guard` holds it) followed by the held value
  `data`.
* Member functions are state-passing functions.  A call made while the mutex
  is held cannot complete (the caller blocks), which is the result `none`;
  a completed call is `some (result, state after the call)`.
* Values of `T` are Lean values: a copy of a value is that value.
-/

/-- The enumeration `std::memory_order`. -/
inductive memory_order where
  | relaxed
  | consume
  | acquire
  | release
  | acq_rel
  | seq_cst
  deriving DecidableEq, Repr

/-- The class `mutex_atomic<T>`: its two data members, `mutable std::mutex m`
and `T data`.  The mutex is `true` while it is locked. -/
structure mutex_atomic (T : Type) where
  m : Bool
  data : T
  deriving DecidableEq, Repr

namespace mutex_atomic

variable {T : Type}

/-- The constructor of `std::lock_guard<std::mutex>`: it locks the mutex, and
does not return while the mutex is held. -/
def lock_guard (s : mutex_atomic T) : Option (mutex_atomic T) :=
  if s.m then none else some { s with m := true }

/-- The destructor of `std::lock_guard<std::mutex>`, run at the end of the
scope that declared it: it unlocks the mutex. -/
def unlock_guard (s : mutex_atomic T) : mutex_atomic T :=
  { s with m := false }

/-- The constructor `mutex_atomic() noexcept = default`: the mutex starts
unlocked and `data` is default-initialised by the default constructor of `T`. -/
def default_construct [Inhabited T] : mutex_atomic T :=
  { m := false, data := default }

/-- The constructor `mutex_atomic(T desired) : data(desired)`. -/
def construct (desired : T) : mutex_atomic T :=
  { m := false, data := desired }

/-- The member function `store(T desired, std::memory_order order)`:
lock, `data = desired`, unlock. -/
def store (s : mutex_atomic T) (desired : T) (_order : memory_order) :
    Option (Unit × mutex_atomic T) :=
  match lock_guard s with
  | none => none
  | some s1 =>
    let s2 := { s1 with data := desired }
    some ((), unlock_guard s2)

/-- The member function `load(std::memory_order order) const`:
lock, `return data`, unlock. -/
def load (s : mutex_atomic T) (_order : memory_order) :
    Option (T × mutex_atomic T) :=
  match lock_guard s with
  | none => none
  | some s1 =>
    let r := s1.data
    some (r, unlock_guard s1)

/-- The conversion `operator T() const`: `return load()`, the memory order
being the default argument `std::memory_order_seq_cst`. -/
def operator_T (s : mutex_atomic T) : Option (T × mutex_atomic T) :=
  load s memory_order.seq_cst

/-- The member function `exchange(T desired, std::memory_order order)`:
lock, `T temp = data`, `data = desired`, `return temp`, unlock. -/
def exchange (s : mutex_atomic T) (desired : T) (_order : memory_order) :
    Option (T × mutex_atomic T) :=
  match lock_guard s with
  | none => none
  | some s1 =>
    let temp := s1.data
    let s2 := { s1 with data := desired }
    some (temp, unlock_guard s2)

/-- The assignment `operator=(T desired)`: `store(desired)` with the default
memory order, then `return desired`. -/
def operator_assign (s : mutex_atomic T) (desired : T) :
    Option (T × mutex_atomic T) :=
  match store s desired memory_order.seq_cst with
  | none => none
  | some (_, s1) => some (desired, s1)

/-- The constant `static constexpr bool is_always_lock_free = false`. -/
def is_always_lock_free : Bool := false

end mutex_atomic

/-! ## The selector `ext_atomic` -/

/-- The two class templates `ext_atomic<T>` can name. -/
inductive Backing where
  | std_atomic
  | mutex_atomic
  deriving DecidableEq, Repr

/-- The trait `std::conditional<B, X, Y>::type`: `X` when `B` is true, `Y`
otherwise. -/
def std_conditional {α : Type} (b : Bool) (x y : α) : α :=
  match b with
  | true => x
  | false => y

/-- The alias template `ext_atomic<T>`.  The argument is the value of
`std::is_trivially_copyable<T>::value` for the type `T`. -/
def ext_atomic (is_trivially_copyable : Bool) : Backing :=
  std_conditional is_trivially_copyable Backing.std_atomic Backing.mutex_atomic

/-- The member `is_always_lock_free` of the class a backing stands for:
`mutex_atomic<T>::is_always_lock_free` for the emulation, and for
`std::atomic<T>` the flag of the platform, which is the argument. -/
def Backing.is_always_lock_free (native_flag : Bool) : Backing → Bool
  | Backing.std_atomic => native_flag
  | Backing.mutex_atomic => mutex_atomic.is_always_lock_free

/-! ## Sequences of completed operations -/

/-- One call on a container: the operations of `mutex_atomic<T>`. -/
inductive Op (T : Type) where
  | store (desired : T) (order : memory_order)
  | exchange (desired : T) (order : memory_order)
  | assign (desired : T)
  | load (order : memory_order)
  | convert
  deriving DecidableEq, Repr

/-- The state of the container after one call, `none` when the call blocks. -/
def Op.apply {T : Type} (s : mutex_atomic T) : Op T → Option (mutex_atomic T)
  | Op.store desired order => (mutex_atomic.store s desired order).map Prod.snd
  | Op.exchange desired order => (mutex_atomic.exchange s desired order).map Prod.snd
  | Op.assign desired => (mutex_atomic.operator_assign s desired).map Prod.snd
  | Op.load order => (mutex_atomic.load s order).map Prod.snd
  | Op.convert => (mutex_atomic.operator_T s).map Prod.snd

/-- The calls of a list made one after the other, each on the state the
previous one left. -/
def run_ops {T : Type} (s : mutex_atomic T) : List (Op T) → Option (mutex_atomic T)
  | [] => some s
  | op :: rest =>
    match Op.apply s op with
    | none => none
    | some s1 => run_ops s1 rest

/-- The desired value of the most recent store, exchange or assignment of a
list of calls, and the given value when there is none. -/
def last_written {T : Type} (init : T) : List (Op T) → T
  | [] => init
  | Op.store desired _ :: rest => last_written desired rest
  | Op.exchange desired _ :: rest => last_written desired rest
  | Op.assign desired :: rest => last_written desired rest
  | Op.load _ :: rest => last_written init rest
  | Op.convert :: rest => last_written init rest

/-! ## Value types whose operations can fail

The constructors and the member functions `store`, `load` and `exchange`
again, for a value type whose default constructor, copy constructor, copy
assignment and move constructor may throw.  Every one of these members of the
class is declared `noexcept`.  The parameter `desired` is passed by value: it
is initialised by the caller before the call, outside the function. -/

namespace throwing

/-- The special member functions of `T` that the container calls, each giving
its result or the exception it throws: the default constructor `T()`; the
copy constructor `T(const T&)`; the copy assignment `target = source`, which
gives the new value of the target, or with the exception the value the target
is left with; and the initialisation of the result of a function from a local
variable in `return temp`, which is the move constructor of `T` (its copy
constructor when it has none), or nothing when the copy is elided. -/
structure value_type (T E : Type) where
  default_ctor : Except E T
  copy_ctor : T → Except E T
  copy_assign : T → T → Except (E × T) T
  move_ctor : T → Except E T

/-- A value type whose operations never throw and copy faithfully. -/
def value_type.nothrow (T E : Type) [Inhabited T] : value_type T E :=
  { default_ctor := Except.ok default,
    copy_ctor := fun x => Except.ok x,
    copy_assign := fun _ source => Except.ok source,
    move_ctor := fun x => Except.ok x }

/-- How a call ends: it returns `r` leaving the state `s`; an exception `e`
leaves the function, the state being `s` once the scopes are unwound;
`std::terminate` is called with `e` the exception in flight; or the call
waits for a held mutex. -/
inductive Outcome (E R S : Type) where
  | returned (r : R) (s : S)
  | threw (e : E) (s : S)
  | terminated (e : E)
  | blocked
  deriving DecidableEq, Repr

/-- The specifier `noexcept` on a function: an exception that would leave the
function calls `std::terminate` instead. -/
def noexcept {E R S : Type} : Outcome E R S → Outcome E R S
  | Outcome.threw e _ => Outcome.terminated e
  | o => o

/-- A block that opens with `const std::lock_guard<std::mutex> lock(m)`: the
mutex is locked, the rest of the block runs, and the destructor of the guard
unlocks the mutex when the block is left, by `return` or by an exception. -/
def with_lock_guard {T E R : Type} (s : mutex_atomic T)
    (body : mutex_atomic T → Outcome E R (mutex_atomic T)) :
    Outcome E R (mutex_atomic T) :=
  match mutex_atomic.lock_guard s with
  | none => Outcome.blocked
  | some s1 =>
    match body s1 with
    | Outcome.returned r s2 => Outcome.returned r (mutex_atomic.unlock_guard s2)
    | Outcome.threw e s2 => Outcome.threw e (mutex_atomic.unlock_guard s2)
    | Outcome.terminated e => Outcome.terminated e
    | Outcome.blocked => Outcome.blocked

/-- The body of `store`: under the guard, `data = desired` is the copy
assignment of `T`. -/
def store_body {T E : Type} (ops : value_type T E) (s : mutex_atomic T)
    (desired : T) (_order : memory_order) : Outcome E Unit (mutex_atomic T) :=
  with_lock_guard s fun s1 =>
    match ops.copy_assign s1.data desired with
    | Except.error (e, left) => Outcome.threw e { s1 with data := left }
    | Except.ok new => Outcome.returned () { s1 with data := new }

/-- The member function `store(T, std::memory_order) noexcept`. -/
def store {T E : Type} (ops : value_type T E) (s : mutex_atomic T)
    (desired : T) (order : memory_order) : Outcome E Unit (mutex_atomic T) :=
  noexcept (store_body ops s desired order)

/-- The body of `load`: under the guard, `return data` copy-constructs the
result from the member `data`. -/
def load_body {T E : Type} (ops : value_type T E) (s : mutex_atomic T)
    (_order : memory_order) : Outcome E T (mutex_atomic T) :=
  with_lock_guard s fun s1 =>
    match ops.copy_ctor s1.data with
    | Except.error e => Outcome.threw e s1
    | Except.ok r => Outcome.returned r s1

/-- The member function `load(std::memory_order) const noexcept`. -/
def load {T E : Type} (ops : value_type T E) (s : mutex_atomic T)
    (order : memory_order) : Outcome E T (mutex_atomic T) :=
  noexcept (load_body ops s order)

/-- The body of `exchange`: under the guard, `T temp = data` copy-constructs
`temp`, then `data = desired` copy-assigns, then `return temp` initialises
the result from the local `temp`. -/
def exchange_body {T E : Type} (ops : value_type T E) (s : mutex_atomic T)
    (desired : T) (_order : memory_order) : Outcome E T (mutex_atomic T) :=
  with_lock_guard s fun s1 =>
    match ops.copy_ctor s1.data with
    | Except.error e => Outcome.threw e s1
    | Except.ok temp =>
      match ops.copy_assign s1.data desired with
      | Except.error (e, left) => Outcome.threw e { s1 with data := left }
      | Except.ok new =>
        match ops.move_ctor temp with
        | Except.error e => Outcome.threw e { s1 with data := new }
        | Except.ok r => Outcome.returned r { s1 with data := new }

/-- The member function `exchange(T, std::memory_order) noexcept`. -/
def exchange {T E : Type} (ops : value_type T E) (s : mutex_atomic T)
    (desired : T) (order : memory_order) : Outcome E T (mutex_atomic T) :=
  noexcept (exchange_body ops s desired order)

/-- The body of the defaulted default constructor: `data` is
default-initialised by `T()`, and the mutex starts unlocked.  The result is
the constructed container. -/
def default_construct_body {T E : Type} (ops : value_type T E) :
    Outcome E (mutex_atomic T) Unit :=
  match ops.default_ctor with
  | Except.error e => Outcome.threw e ()
  | Except.ok d => Outcome.returned { m := false, data := d } ()

/-- The constructor `mutex_atomic() noexcept = default`. -/
def default_construct {T E : Type} (ops : value_type T E) :
    Outcome E (mutex_atomic T) Unit :=
  noexcept (default_construct_body ops)

/-- The result of a call in the model where copies cannot fail, as an
outcome. -/
def of_option {E R S : Type} : Option (R × S) → Outcome E R S
  | none => Outcome.blocked
  | some (r, s) => Outcome.returned r s

/-- The exception that reaches the caller of a call, when one does. -/
def Outcome.propagated {E R S : Type} : Outcome E R S → Option E
  | Outcome.threw e _ => some e
  | _ => none

/-- A value type over the naturals whose operations always throw the
exception `e`, a failed assignment leaving its target as it was. -/
def value_type.always_throws {E : Type} (e : E) : value_type Nat E :=
  { default_ctor := Except.error e,
    copy_ctor := fun _ => Except.error e,
    copy_assign := fun target _ => Except.error (e, target),
    move_ctor := fun _ => Except.error e }

/-- A value type over the naturals whose constructors copy faithfully and
whose copy assignment always throws `e`, leaving its target as it was. -/
def value_type.assign_throws {E : Type} (e : E) : value_type Nat E :=
  { default_ctor := Except.ok 0,
    copy_ctor := fun x => Except.ok x,
    copy_assign := fun target _ => Except.error (e, target),
    move_ctor := fun x => Except.ok x }

end throwing

/-! ## Threads calling `exchange` on one container

Each thread runs the body of `exchange` one statement at a time; a schedule
says which thread runs next.  The mutex makes the program free of data
races, so its executions are the interleavings of these statements. -/

namespace concurrent

/-- Where a thread is in the body of `exchange`: before the lock guard is
constructed; holding the mutex, before `T temp = data`; after that copy;
after `data = desired`; after the guard is destroyed and `temp` returned. -/
inductive pc (T : Type) where
  | called
  | locked
  | copied (temp : T)
  | assigned (temp : T)
  | returned (temp : T)
  deriving DecidableEq, Repr

/-- A thread calling `exchange(desired)`. -/
structure thread (T : Type) where
  desired : T
  at_pc : pc T
  deriving DecidableEq, Repr

/-- The shared container and the threads calling `exchange` on it. -/
structure system (T : Type) where
  shared : mutex_atomic T
  threads : List (thread T)
  deriving DecidableEq, Repr

/-- One statement of `exchange` run by one thread.  A thread that finds the
mutex held waits, and a thread that has returned stays so. -/
def thread.step {T : Type} (c : mutex_atomic T) (th : thread T) :
    mutex_atomic T × thread T :=
  match th.at_pc with
  | pc.called =>
    match mutex_atomic.lock_guard c with
    | none => (c, th)
    | some c1 => (c1, { th with at_pc := pc.locked })
  | pc.locked => (c, { th with at_pc := pc.copied c.data })
  | pc.copied temp => ({ c with data := th.desired }, { th with at_pc := pc.assigned temp })
  | pc.assigned temp => (mutex_atomic.unlock_guard c, { th with at_pc := pc.returned temp })
  | pc.returned _ => (c, th)

/-- The scheduler runs thread number `i` for one statement. -/
def system.step {T : Type} (sys : system T) (i : Nat) : system T :=
  match sys.threads[i]? with
  | none => sys
  | some th =>
    let r := thread.step sys.shared th
    { shared := r.1, threads := sys.threads.set i r.2 }

/-- The system after a schedule, a list of thread numbers. -/
def system.run {T : Type} (sys : system T) : List Nat → system T
  | [] => sys
  | i :: rest => system.run (sys.step i) rest

/-- A container constructed with `initial_value`, and one thread for each
value of the list, about to call `exchange` with it. -/
def system.start {T : Type} (initial_value : T) (values : List T) : system T :=
  { shared := mutex_atomic.construct initial_value,
    threads := values.map fun v => { desired := v, at_pc := pc.called } }

/-- Whether a thread has returned from `exchange`. -/
def thread.has_returned {T : Type} (th : thread T) : Bool :=
  match th.at_pc with
  | pc.returned _ => true
  | _ => false

/-- Whether every thread has returned. -/
def system.all_returned {T : Type} (sys : system T) : Bool :=
  sys.threads.all thread.has_returned

/-- The previous values returned so far, one for each thread that has
returned. -/
def system.returned_values {T : Type} (sys : system T) : List T :=
  sys.threads.filterMap fun th =>
    match th.at_pc with
    | pc.returned temp => some temp
    | _ => none

/-- Whether a thread holds the mutex: it is between the construction and the
destruction of its lock guard. -/
def thread.in_critical {T : Type} (th : thread T) : Bool :=
  match th.at_pc with
  | pc.locked => true
  | pc.copied _ => true
  | pc.assigned _ => true
  | _ => false

/-- The value a thread accounts for: `temp` once it has overwritten `data`,
and until then the value it is about to write. -/
def thread.held {T : Type} (th : thread T) : T :=
  match th.at_pc with
  | pc.assigned temp => temp
  | pc.returned temp => temp
  | _ => th.desired

/-- What every reachable system satisfies: the mutex is held by exactly the
one thread inside its critical section, if any; a thread that has copied
`data` into `temp` still sees that value in `data`; and the held value with
the values the threads account for are the values of `target`. -/
structure system.invariant {T : Type} (sys : system T) (target : Multiset T) : Prop where
  excl : sys.threads.countP thread.in_critical = if sys.shared.m then 1 else 0
  fresh : ∀ th ∈ sys.threads, ∀ t, th.at_pc = pc.copied t → t = sys.shared.data
  conserved : sys.shared.data ::ₘ (↑(sys.threads.map thread.held) : Multiset T) = target

/-- The schedule that runs each of `n` threads through the four statements
of `exchange` in turn, the last thread first. -/
def sequential_schedule : Nat → List Nat
  | 0 => []
  | n + 1 => [n, n, n, n] ++ sequential_schedule n

/-- The values the specification lists for `N` threads, as it is written:
the initial value and `value_1, ..., value_{N-1}` of the `N` exchanged
values. -/
def listed_values {T : Type} (initial_value : T) (values : List T) : Multiset T :=
  initial_value ::ₘ (↑(values.take (values.length - 1)) : Multiset T)

end concurrent

/-! ## Theorems -/

namespace mutex_atomic

variable {T : Type}

/-- C1: on a container whose guard is free, `store(v1)` completes, and the
`load()` that follows returns `v1` and leaves the container as it was,
whatever the memory orders. -/
theorem store_then_load (s : mutex_atomic T) (v1 : T) (o1 o2 : memory_order)
    (hfree : s.m = false) :
    store s v1 o1 = some ((), { m := false, data := v1 }) ∧
      load { m := false, data := v1 } o2 = some (v1, { m := false, data := v1 }) := by
  constructor
  · simp [store, lock_guard, unlock_guard, hfree]
  · simp [load, lock_guard, unlock_guard]

theorem store_then_load_witness :
    store (construct 5) 7 memory_order.release = some ((), { m := false, data := 7 }) ∧
      load { m := false, data := 7 } memory_order.acquire
        = some (7, { m := false, data := 7 }) :=
  store_then_load (construct 5) 7 memory_order.release memory_order.acquire rfl

/-- C2: on a container whose guard is free, `exchange(v2)` returns the value
held before the call and the `load()` that follows returns `v2`; right after
`store(v1)` the value returned by `exchange(v2)` is `v1`. -/
theorem exchange_returns_previous (s : mutex_atomic T) (v1 v2 : T)
    (o1 o2 o3 : memory_order) (hfree : s.m = false) :
    (exchange s v2 o2 = some (s.data, { m := false, data := v2 }) ∧
      load { m := false, data := v2 } o3 = some (v2, { m := false, data := v2 })) ∧
    (store s v1 o1 = some ((), { m := false, data := v1 }) ∧
      exchange { m := false, data := v1 } v2 o2 = some (v1, { m := false, data := v2 })) := by
  refine ⟨⟨?_, ?_⟩, ?_, ?_⟩
  · simp [exchange, lock_guard, unlock_guard, hfree]
  · simp [load, lock_guard, unlock_guard]
  · simp [store, lock_guard, unlock_guard, hfree]
  · simp [exchange, lock_guard, unlock_guard]

theorem exchange_returns_previous_witness :
    (exchange (construct 3) 9 memory_order.acq_rel
        = some ((construct 3).data, { m := false, data := 9 }) ∧
      load { m := false, data := 9 } memory_order.relaxed
        = some (9, { m := false, data := 9 })) ∧
    (store (construct 3) 4 memory_order.seq_cst = some ((), { m := false, data := 4 }) ∧
      exchange { m := false, data := 4 } 9 memory_order.acq_rel
        = some (4, { m := false, data := 9 })) :=
  exchange_returns_previous (construct 3) 4 9 memory_order.seq_cst memory_order.acq_rel
    memory_order.relaxed rfl

/-- C5: in every state `operator=(desired)` leaves the container in the state
`store(desired)` leaves it in, blocking exactly when `store` blocks; and when
the guard is free it returns `desired`. -/
theorem operator_assign_eq_store (s : mutex_atomic T) (desired : T) :
    (operator_assign s desired).map Prod.snd
        = (store s desired memory_order.seq_cst).map Prod.snd ∧
      (∀ r s1, operator_assign s desired = some (r, s1) → r = desired) ∧
      (s.m = false →
        operator_assign s desired = some (desired, { m := false, data := desired })) := by
  refine ⟨?_, ?_, ?_⟩
  · cases h : store s desired memory_order.seq_cst <;> simp [operator_assign, h]
  · intro r s1 h
    cases h1 : store s desired memory_order.seq_cst with
    | none => simp [operator_assign, h1] at h
    | some p =>
      simp only [operator_assign, h1, Option.some.injEq, Prod.mk.injEq] at h
      exact h.1.symm
  · intro hfree
    simp [operator_assign, store, lock_guard, unlock_guard, hfree]

theorem operator_assign_eq_store_witness :
    operator_assign (construct 1) 2 = some (2, { m := false, data := 2 }) :=
  (operator_assign_eq_store (construct 1) 2).2.2 rfl

/-- C9: a default-constructed container has its guard free, and `load()` on
it returns the default value of `T`. -/
theorem default_construct_load [Inhabited T] (o : memory_order) :
    load (default_construct : mutex_atomic T) o
      = some ((default : T), (default_construct : mutex_atomic T)) := by
  simp [load, lock_guard, unlock_guard, default_construct]

/-- C10: the memory order has no effect: `store`, `load` and `exchange` give
the same result and the same state for any two memory orders. -/
theorem memory_order_ignored (s : mutex_atomic T) (desired : T) (o1 o2 : memory_order) :
    store s desired o1 = store s desired o2 ∧
      load s o1 = load s o2 ∧
      exchange s desired o1 = exchange s desired o2 :=
  ⟨rfl, rfl, rfl⟩

end mutex_atomic

/-! ### Sequences of calls -/

theorem Op.apply_free {T : Type} (s : mutex_atomic T) (op : Op T) (hfree : s.m = false) :
    Op.apply s op = some { m := false, data := last_written s.data [op] } := by
  obtain ⟨m, d⟩ := s
  simp only at hfree
  subst hfree
  cases op <;>
    simp [Op.apply, last_written, mutex_atomic.store, mutex_atomic.exchange,
      mutex_atomic.operator_assign, mutex_atomic.load, mutex_atomic.operator_T,
      mutex_atomic.lock_guard, mutex_atomic.unlock_guard]

theorem last_written_cons {T : Type} (init : T) (op : Op T) (rest : List (Op T)) :
    last_written init (op :: rest) = last_written (last_written init [op]) rest := by
  cases op <;> simp [last_written]

theorem run_ops_free {T : Type} (ops : List (Op T)) (s : mutex_atomic T)
    (hfree : s.m = false) :
    run_ops s ops = some { m := false, data := last_written s.data ops } := by
  induction ops generalizing s with
  | nil =>
    obtain ⟨m, d⟩ := s
    simp only at hfree
    subst hfree
    simp [run_ops, last_written]
  | cons op rest ih =>
    rw [run_ops, Op.apply_free s op hfree]
    simp only
    rw [ih _ rfl, ← last_written_cons]

/-- C4: from a container constructed with an initial value, every finite
sequence of store, exchange, assignment, load and conversion calls completes,
and the `load()` made after it returns the desired value of the most recent
store, exchange or assignment, or the initial value when there is none; a
load or a conversion leaves the state as it was. -/
theorem held_value_is_last_written {T : Type} (init : T) (ops : List (Op T))
    (o : memory_order) :
    (∃ s, run_ops (mutex_atomic.construct init) ops = some s ∧
      mutex_atomic.load s o = some (last_written init ops, s)) ∧
    (∀ s : mutex_atomic T, s.m = false →
      Op.apply s (Op.load o) = some s ∧ Op.apply s Op.convert = some s) := by
  constructor
  · refine ⟨{ m := false, data := last_written init ops }, ?_, ?_⟩
    · exact run_ops_free ops (mutex_atomic.construct init) rfl
    · simp [mutex_atomic.load, mutex_atomic.lock_guard, mutex_atomic.unlock_guard]
  · intro s hfree
    obtain ⟨m, d⟩ := s
    simp only at hfree
    subst hfree
    simp [Op.apply, mutex_atomic.load, mutex_atomic.operator_T,
      mutex_atomic.lock_guard, mutex_atomic.unlock_guard]

theorem held_value_is_last_written_witness :
    Op.apply (mutex_atomic.construct 1) (Op.load memory_order.seq_cst)
        = some (mutex_atomic.construct 1) ∧
      Op.apply (mutex_atomic.construct 1) Op.convert = some (mutex_atomic.construct 1) :=
  (held_value_is_last_written 0 [Op.store 1 memory_order.seq_cst] memory_order.seq_cst).2
    (mutex_atomic.construct 1) rfl

/-! ### The selector -/

/-- C6: `ext_atomic<T>` is `std::atomic<T>` when `T` is trivially copyable
and `mutex_atomic<T>` when it is not, so for every value of the predicate
exactly one of the two is chosen. -/
theorem ext_atomic_selects (is_trivially_copyable : Bool) :
    (ext_atomic is_trivially_copyable = Backing.std_atomic ↔ is_trivially_copyable = true) ∧
    (ext_atomic is_trivially_copyable = Backing.mutex_atomic ↔ is_trivially_copyable = false) ∧
    (ext_atomic is_trivially_copyable = Backing.std_atomic ∨
      ext_atomic is_trivially_copyable = Backing.mutex_atomic) ∧
    ¬ (ext_atomic is_trivially_copyable = Backing.std_atomic ∧
      ext_atomic is_trivially_copyable = Backing.mutex_atomic) := by
  cases is_trivially_copyable <;> simp [ext_atomic, std_conditional]

/-- C7: for a type that is not trivially copyable, the flag
`is_always_lock_free` of `ext_atomic<T>` is `false`, whatever the flag of the
native container. -/
theorem ext_atomic_not_lock_free (native_flag : Bool) :
    Backing.is_always_lock_free native_flag (ext_atomic false) = false ∧
      ext_atomic false = Backing.mutex_atomic :=
  ⟨rfl, rfl⟩

/-! ### Value types whose operations can fail -/

namespace throwing

theorem noexcept_propagated {E R S : Type} (o : Outcome E R S) :
    (noexcept o).propagated = none := by
  cases o <;> rfl

theorem store_nothrow {T E : Type} [Inhabited T] (s : mutex_atomic T) (desired : T)
    (o : memory_order) :
    store (value_type.nothrow T E) s desired o
      = of_option (mutex_atomic.store s desired o) := by
  cases hm : s.m <;>
    simp [store, store_body, with_lock_guard, noexcept, value_type.nothrow, of_option,
      mutex_atomic.store, mutex_atomic.lock_guard, hm]

theorem load_nothrow {T E : Type} [Inhabited T] (s : mutex_atomic T) (o : memory_order) :
    load (value_type.nothrow T E) s o = of_option (mutex_atomic.load s o) := by
  cases hm : s.m <;>
    simp [load, load_body, with_lock_guard, noexcept, value_type.nothrow, of_option,
      mutex_atomic.load, mutex_atomic.lock_guard, hm]

theorem exchange_nothrow {T E : Type} [Inhabited T] (s : mutex_atomic T) (desired : T)
    (o : memory_order) :
    exchange (value_type.nothrow T E) s desired o
      = of_option (mutex_atomic.exchange s desired o) := by
  cases hm : s.m <;>
    simp [exchange, exchange_body, with_lock_guard, noexcept, value_type.nothrow, of_option,
      mutex_atomic.exchange, mutex_atomic.lock_guard, hm]

theorem default_construct_nothrow {T E : Type} [Inhabited T] :
    default_construct (value_type.nothrow T E)
      = Outcome.returned (mutex_atomic.default_construct : mutex_atomic T) () := by
  simp [default_construct, default_construct_body, noexcept, value_type.nothrow,
    mutex_atomic.default_construct]

/-- C8, as stated, fails: with a copy constructor and a default constructor
that throw, `load`, `exchange` and the default constructor end in
`std::terminate`, and no exception reaches the caller. -/
theorem failure_propagates_counterexample :
    (load (value_type.always_throws 42) (mutex_atomic.construct 5) memory_order.seq_cst
        = Outcome.terminated 42 ∧
      (load (value_type.always_throws 42) (mutex_atomic.construct 5)
        memory_order.seq_cst).propagated = none) ∧
    (exchange (value_type.always_throws 42) (mutex_atomic.construct 5) 6 memory_order.seq_cst
        = Outcome.terminated 42 ∧
      (exchange (value_type.always_throws 42) (mutex_atomic.construct 5) 6
        memory_order.seq_cst).propagated = none) ∧
    ((default_construct (value_type.always_throws 42) : Outcome Nat (mutex_atomic Nat) Unit)
        = Outcome.terminated 42 ∧
      (default_construct (value_type.always_throws 42) :
        Outcome Nat (mutex_atomic Nat) Unit).propagated = none) := by
  decide

/-- C8, amended: in `store`, `load`, `exchange` and the default constructor,
called with the guard free, no failure of an operation of `T` reaches the
caller.  When the copy construction of `data` fails with `e` in `load` or
`exchange`, the function adds no handling of its own (its body, taken without
the specifier, would let `e` out unmodified with the lock guard destroyed),
and being `noexcept` it ends in `std::terminate` with `e`; the same holds for
a copy assignment that fails in `store` or `exchange`, for the
initialisation of the result that fails in `exchange`, and for a default
construction that fails.  When every operation of `T` that the call performs
succeeds, the call returns, with the guard released. -/
theorem failure_terminates {T E : Type} (ops : value_type T E) (s : mutex_atomic T)
    (desired : T) (o : memory_order) (hfree : s.m = false) :
    ((store ops s desired o).propagated = none ∧ (load ops s o).propagated = none ∧
      (exchange ops s desired o).propagated = none ∧
      (default_construct ops).propagated = none) ∧
    (∀ e, ops.copy_ctor s.data = Except.error e →
      (load_body ops s o = Outcome.threw e s ∧ load ops s o = Outcome.terminated e) ∧
      (exchange_body ops s desired o = Outcome.threw e s ∧
        exchange ops s desired o = Outcome.terminated e)) ∧
    (∀ e left, ops.copy_assign s.data desired = Except.error (e, left) →
      (store_body ops s desired o = Outcome.threw e { m := false, data := left } ∧
        store ops s desired o = Outcome.terminated e) ∧
      (∀ temp, ops.copy_ctor s.data = Except.ok temp →
        exchange_body ops s desired o = Outcome.threw e { m := false, data := left } ∧
          exchange ops s desired o = Outcome.terminated e)) ∧
    (∀ temp new e, ops.copy_ctor s.data = Except.ok temp →
      ops.copy_assign s.data desired = Except.ok new →
      ops.move_ctor temp = Except.error e →
      exchange_body ops s desired o = Outcome.threw e { m := false, data := new } ∧
        exchange ops s desired o = Outcome.terminated e) ∧
    (∀ e, ops.default_ctor = Except.error e →
      default_construct_body ops = Outcome.threw e () ∧
        default_construct ops = Outcome.terminated e) ∧
    (∀ new, ops.copy_assign s.data desired = Except.ok new →
      store ops s desired o = Outcome.returned () { m := false, data := new }) ∧
    (∀ v, ops.copy_ctor s.data = Except.ok v → load ops s o = Outcome.returned v s) ∧
    (∀ temp new r, ops.copy_ctor s.data = Except.ok temp →
      ops.copy_assign s.data desired = Except.ok new →
      ops.move_ctor temp = Except.ok r →
      exchange ops s desired o = Outcome.returned r { m := false, data := new }) ∧
    (∀ d, ops.default_ctor = Except.ok d →
      default_construct ops = Outcome.returned { m := false, data := d } ()) := by
  obtain ⟨m, d⟩ := s
  simp only at hfree
  subst hfree
  refine ⟨⟨noexcept_propagated _, noexcept_propagated _, noexcept_propagated _,
    noexcept_propagated _⟩, ?_, ?_, ?_, ?_, ?_, ?_, ?_, ?_⟩
  · intro e he
    simp only at he
    simp [load, load_body, exchange, exchange_body, with_lock_guard, noexcept,
      mutex_atomic.lock_guard, mutex_atomic.unlock_guard, he]
  · intro e left he
    simp only at he
    refine ⟨?_, ?_⟩
    · simp [store, store_body, with_lock_guard, noexcept,
        mutex_atomic.lock_guard, mutex_atomic.unlock_guard, he]
    · intro temp ht
      simp only at ht
      simp [exchange, exchange_body, with_lock_guard, noexcept,
        mutex_atomic.lock_guard, mutex_atomic.unlock_guard, he, ht]
  · intro temp new e ht hn he
    simp only at ht hn
    simp [exchange, exchange_body, with_lock_guard, noexcept,
      mutex_atomic.lock_guard, mutex_atomic.unlock_guard, he, ht, hn]
  · intro e he
    simp [default_construct, default_construct_body, noexcept, he]
  · intro new hn
    simp only at hn
    simp [store, store_body, with_lock_guard, noexcept,
      mutex_atomic.lock_guard, mutex_atomic.unlock_guard, hn]
  · intro v hv
    simp only at hv
    simp [load, load_body, with_lock_guard, noexcept,
      mutex_atomic.lock_guard, mutex_atomic.unlock_guard, hv]
  · intro temp new r ht hn hr
    simp only at ht hn
    simp [exchange, exchange_body, with_lock_guard, noexcept,
      mutex_atomic.lock_guard, mutex_atomic.unlock_guard, hr, ht, hn]
  · intro d hd
    simp [default_construct, default_construct_body, noexcept, hd]

theorem failure_terminates_witness :
    ((load_body (value_type.always_throws 42) (mutex_atomic.construct 5) memory_order.seq_cst
          = Outcome.threw 42 (mutex_atomic.construct 5) ∧
        load (value_type.always_throws 42) (mutex_atomic.construct 5) memory_order.seq_cst
          = Outcome.terminated 42) ∧
      (exchange_body (value_type.always_throws 42) (mutex_atomic.construct 5) 6
          memory_order.seq_cst = Outcome.threw 42 (mutex_atomic.construct 5) ∧
        exchange (value_type.always_throws 42) (mutex_atomic.construct 5) 6
          memory_order.seq_cst = Outcome.terminated 42)) ∧
    (exchange_body (value_type.assign_throws 13) (mutex_atomic.construct 5) 6
        memory_order.seq_cst = Outcome.threw 13 { m := false, data := 5 } ∧
      exchange (value_type.assign_throws 13) (mutex_atomic.construct 5) 6
        memory_order.seq_cst = Outcome.terminated 13) :=
  ⟨(failure_terminates (value_type.always_throws 42) (mutex_atomic.construct 5) 6
      memory_order.seq_cst rfl).2.1 42 rfl,
    ((failure_terminates (value_type.assign_throws 13) (mutex_atomic.construct 5) 6
      memory_order.seq_cst rfl).2.2.1 13 5 rfl).2 5 rfl⟩

end throwing

/-! ### Threads calling `exchange` -/

namespace concurrent

theorem thread.not_copied_of_not_critical {T : Type} (l : List (thread T))
    (h : l.countP thread.in_critical = 0) :
    ∀ th ∈ l, ∀ t, th.at_pc ≠ pc.copied t := by
  intro th hth t heq
  have hc : thread.in_critical th = true := by simp [thread.in_critical, heq]
  have hpos : 0 < l.countP thread.in_critical := List.countP_pos_iff.mpr ⟨th, hth, hc⟩
  omega

theorem system.invariant_step_at {T : Type} (c : mutex_atomic T) (pre post : List (thread T))
    (th : thread T) (target : Multiset T)
    (h : system.invariant { shared := c, threads := pre ++ th :: post } target) :
    system.invariant
      { shared := (thread.step c th).1, threads := pre ++ (thread.step c th).2 :: post }
      target := by
  obtain ⟨hexcl, hfresh, hcons⟩ := h
  obtain ⟨m, d⟩ := c
  obtain ⟨v, at_pc⟩ := th
  simp only [List.countP_append, List.countP_cons] at hexcl
  simp only [List.map_append, List.map_cons] at hcons
  cases at_pc with
  | called =>
    cases m with
    | true =>
      exact ⟨by simpa [thread.step, mutex_atomic.lock_guard, List.countP_append,
        List.countP_cons] using hexcl, by simpa [thread.step, mutex_atomic.lock_guard] using hfresh,
        by simpa [thread.step, mutex_atomic.lock_guard] using hcons⟩
    | false =>
      refine ⟨?_, ?_, ?_⟩
      · have h0 : pre.countP thread.in_critical + post.countP thread.in_critical = 0 := by
          simpa [thread.in_critical] using hexcl
        simp only [thread.step, mutex_atomic.lock_guard, List.countP_append, List.countP_cons,
          thread.in_critical, Bool.false_eq_true, if_false, if_true]
        omega
      · intro th hth t ht
        simp only [thread.step, mutex_atomic.lock_guard, List.mem_append, List.mem_cons] at hth
        simp only [thread.step, mutex_atomic.lock_guard]
        rcases hth with hp | hp | hp
        · exact hfresh th (by simp [hp]) t ht
        · subst hp
          simp at ht
        · exact hfresh th (by simp [hp]) t ht
      · simpa [thread.step, mutex_atomic.lock_guard, thread.held] using hcons
  | locked =>
    refine ⟨?_, ?_, ?_⟩
    · simpa [thread.step, List.countP_append, List.countP_cons, thread.in_critical] using hexcl
    · intro th hth t ht
      simp only [thread.step, List.mem_append, List.mem_cons] at hth
      simp only [thread.step]
      rcases hth with hp | hp | hp
      · exact hfresh th (by simp [hp]) t ht
      · subst hp
        simp at ht
        exact ht.symm
      · exact hfresh th (by simp [hp]) t ht
    · simpa [thread.step, thread.held] using hcons
  | copied temp =>
    have htemp : temp = d := hfresh ⟨v, pc.copied temp⟩ (by simp) temp rfl
    subst htemp
    have hzero : pre.countP thread.in_critical = 0 ∧ post.countP thread.in_critical = 0 := by
      simp only [thread.in_critical] at hexcl
      cases m
      · simp at hexcl
      · simp at hexcl
        omega
    refine ⟨?_, ?_, ?_⟩
    · simpa [thread.step, List.countP_append, List.countP_cons, thread.in_critical] using hexcl
    · intro th hth t ht
      simp only [thread.step, List.mem_append, List.mem_cons] at hth
      rcases hth with hp | hp | hp
      · exact absurd ht (thread.not_copied_of_not_critical pre hzero.1 th hp t)
      · subst hp
        simp at ht
      · exact absurd ht (thread.not_copied_of_not_critical post hzero.2 th hp t)
    · simp only [thread.step, thread.held, List.map_append, List.map_cons]
      simp only [thread.held] at hcons
      rw [← hcons]
      simp only [← Multiset.coe_add, ← Multiset.cons_coe, Multiset.cons_add]
      simp only [Multiset.add_cons]
      exact Multiset.cons_swap _ _ _
  | assigned temp =>
    have hm : m = true := by
      simp only [thread.in_critical] at hexcl
      cases m <;> simp at hexcl ⊢
    subst hm
    refine ⟨?_, ?_, ?_⟩
    · have h0 : pre.countP thread.in_critical + post.countP thread.in_critical = 0 := by
        simp [thread.in_critical] at hexcl
        omega
      simp only [thread.step, mutex_atomic.unlock_guard, List.countP_append, List.countP_cons,
        thread.in_critical, Bool.false_eq_true, if_false]
      omega
    · intro th hth t ht
      simp only [thread.step, mutex_atomic.unlock_guard, List.mem_append, List.mem_cons] at hth
      simp only [thread.step, mutex_atomic.unlock_guard]
      rcases hth with hp | hp | hp
      · exact hfresh th (by simp [hp]) t ht
      · subst hp
        simp at ht
      · exact hfresh th (by simp [hp]) t ht
    · simpa [thread.step, mutex_atomic.unlock_guard, thread.held] using hcons
  | returned temp =>
    exact ⟨by simpa [thread.step, List.countP_append, List.countP_cons] using hexcl,
      by simpa [thread.step] using hfresh, by simpa [thread.step] using hcons⟩

theorem system.invariant_step {T : Type} (sys : system T) (i : Nat) (target : Multiset T)
    (h : system.invariant sys target) : system.invariant (sys.step i) target := by
  unfold system.step
  cases hi : sys.threads[i]? with
  | none => simpa using h
  | some th =>
    obtain ⟨hlt, hget⟩ := List.getElem?_eq_some.mp hi
    have hsplit : sys.threads = sys.threads.take i ++ th :: sys.threads.drop (i + 1) := by
      rw [← hget, List.getElem_cons_drop, List.take_append_drop]
    have hset : ∀ x, sys.threads.set i x = sys.threads.take i ++ x :: sys.threads.drop (i + 1) :=
      fun x => List.set_eq_take_cons_drop x hlt
    simp only [hset]
    apply system.invariant_step_at
    rw [← hsplit]
    exact h

theorem system.invariant_run {T : Type} (schedule : List Nat) (sys : system T)
    (target : Multiset T) (h : system.invariant sys target) :
    system.invariant (sys.run schedule) target := by
  induction schedule generalizing sys with
  | nil => simpa [system.run] using h
  | cons i rest ih => exact ih _ (system.invariant_step sys i target h)

theorem system.invariant_start {T : Type} (initial_value : T) (values : List T) :
    system.invariant (system.start initial_value values)
      (initial_value ::ₘ (↑values : Multiset T)) := by
  refine ⟨?_, ?_, ?_⟩
  · simp [system.start, mutex_atomic.construct, List.countP_map, List.countP_eq_zero,
      thread.in_critical]
  · intro th hth t ht
    simp only [system.start, List.mem_map] at hth
    obtain ⟨v, _, hv⟩ := hth
    subst hv
    simp at ht
  · have hmap : (values.map fun v => ({ desired := v, at_pc := pc.called } : thread T)).map
        thread.held = values := by
      simp [List.map_map, Function.comp_def, thread.held]
    simp only [system.start, mutex_atomic.construct, hmap]

theorem system.returned_values_eq_held {T : Type} (l : List (thread T))
    (h : l.all thread.has_returned = true) :
    (l.filterMap fun th => match th.at_pc with
      | pc.returned temp => some temp
      | _ => none) = l.map thread.held := by
  induction l with
  | nil => rfl
  | cons th rest ih =>
    simp only [List.all_cons, Bool.and_eq_true] at h
    obtain ⟨hhead, htail⟩ := h
    obtain ⟨v, at_pc⟩ := th
    cases at_pc <;> simp only [thread.has_returned, Bool.false_eq_true] at hhead
    simp [List.filterMap_cons, thread.held, ih htail]

theorem system.not_critical_of_returned {T : Type} (l : List (thread T))
    (h : l.all thread.has_returned = true) : l.countP thread.in_critical = 0 := by
  rw [List.countP_eq_zero]
  intro th hth
  have hr := List.all_eq_true.mp h th hth
  obtain ⟨v, at_pc⟩ := th
  cases at_pc <;> simp [thread.has_returned, thread.in_critical] at hr ⊢

theorem system.step_at_length {T : Type} (c : mutex_atomic T) (pre post : List (thread T))
    (th : thread T) :
    system.step { shared := c, threads := pre ++ th :: post } pre.length
      = { shared := (thread.step c th).1, threads := pre ++ (thread.step c th).2 :: post } := by
  have hget : (pre ++ th :: post)[pre.length]? = some th := by
    rw [List.getElem?_append_right (Nat.le_refl _)]
    simp
  have hset : ∀ x, (pre ++ th :: post).set pre.length x = pre ++ x :: post := by
    intro x
    rw [List.set_append_right _ _ (Nat.le_refl _)]
    simp
  simp only [system.step, hget, hset]

theorem system.four_steps {T : Type} (d v : T) (pre post : List (thread T)) :
    system.run
        { shared := { m := false, data := d },
          threads := pre ++ { desired := v, at_pc := pc.called } :: post }
        [pre.length, pre.length, pre.length, pre.length]
      = { shared := { m := false, data := v },
          threads := pre ++ { desired := v, at_pc := pc.returned d } :: post } := by
  simp [system.run, system.step_at_length, thread.step, mutex_atomic.lock_guard,
    mutex_atomic.unlock_guard]

theorem system.run_append {T : Type} (xs ys : List Nat) (sys : system T) :
    sys.run (xs ++ ys) = (sys.run xs).run ys := by
  induction xs generalizing sys with
  | nil => rfl
  | cons i rest ih => simp [system.run, ih]

theorem system.sequential_schedule_completes {T : Type} (pending : List T) :
    ∀ (d : T) (finished : List (thread T)), finished.all thread.has_returned = true →
      (system.run
          { shared := { m := false, data := d },
            threads := (pending.map fun v => { desired := v, at_pc := pc.called }) ++ finished }
          (sequential_schedule pending.length)).all_returned = true := by
  induction pending using List.reverseRecOn with
  | nil =>
    intro d finished h
    simpa [sequential_schedule, system.run, system.all_returned] using h
  | append_singleton p v ih =>
    intro d finished h
    have hlen : (p ++ [v]).length = p.length + 1 := by simp
    rw [hlen, sequential_schedule, system.run_append]
    have hthreads : ((p ++ [v]).map fun v => ({ desired := v, at_pc := pc.called } : thread T))
        ++ finished
        = (p.map fun v => ({ desired := v, at_pc := pc.called } : thread T))
          ++ { desired := v, at_pc := pc.called } :: finished := by
      simp
    have hidx : p.length
        = (p.map fun v => ({ desired := v, at_pc := pc.called } : thread T)).length := by
      simp
    rw [hthreads]
    have h4 := system.four_steps d v
      (p.map fun v => ({ desired := v, at_pc := pc.called } : thread T)) finished
    rw [← hidx] at h4
    rw [h4]
    apply ih
    simpa [thread.has_returned] using h

/-- C3, as stated, fails: with one thread exchanging `7` into a container
that holds `0`, and with two threads exchanging `7` and `8`, every thread
returns, and the returned values with the final `load()` are one value more
than the listed values `initial_value, value_1, ..., value_{N-1}`. -/
theorem exchange_threads_counterexample :
    (((system.start 0 [7]).run [0, 0, 0, 0]).all_returned = true ∧
      mutex_atomic.load ((system.start 0 [7]).run [0, 0, 0, 0]).shared memory_order.seq_cst
        = some (7, { m := false, data := 7 }) ∧
      ((system.start 0 [7]).run [0, 0, 0, 0]).returned_values = [0] ∧
      (7 ::ₘ (↑[0] : Multiset Nat)) ≠ listed_values 0 [7]) ∧
    (((system.start 0 [7, 8]).run [0, 1, 0, 0, 1, 0, 1, 1, 1, 1]).all_returned = true ∧
      mutex_atomic.load ((system.start 0 [7, 8]).run [0, 1, 0, 0, 1, 0, 1, 1, 1, 1]).shared
        memory_order.seq_cst = some (8, { m := false, data := 8 }) ∧
      ((system.start 0 [7, 8]).run [0, 1, 0, 0, 1, 0, 1, 1, 1, 1]).returned_values = [0, 7] ∧
      (8 ::ₘ (↑[0, 7] : Multiset Nat)) ≠ listed_values 0 [7, 8]) := by
  decide

/-- C3, amended: `N` threads each call `exchange` with its own value on one
container constructed with an initial value.  Some schedule lets every thread
return; and after every schedule at the end of which every thread has
returned, the guard is free, there are `N` returned values, and the final
`load()` with the returned values are, as a multiset, the initial value with
all `N` exchanged values: when these are distinct, none is returned twice. -/
theorem exchange_threads_conserve {T : Type} (initial_value : T) (values : List T)
    (o : memory_order) :
    ((system.start initial_value values).run
        (sequential_schedule values.length)).all_returned = true ∧
    ∀ schedule : List Nat,
      ((system.start initial_value values).run schedule).all_returned = true →
      mutex_atomic.load ((system.start initial_value values).run schedule).shared o
          = some (((system.start initial_value values).run schedule).shared.data,
              ((system.start initial_value values).run schedule).shared) ∧
        ((system.start initial_value values).run schedule).returned_values.length
          = values.length ∧
        (((system.start initial_value values).run schedule).shared.data ::ₘ
            (↑((system.start initial_value values).run schedule).returned_values : Multiset T))
          = initial_value ::ₘ (↑values : Multiset T) ∧
        ((initial_value :: values).Nodup →
          (((system.start initial_value values).run schedule).shared.data ::
            ((system.start initial_value values).run schedule).returned_values).Nodup) := by
  constructor
  · have h := system.sequential_schedule_completes values initial_value [] rfl
    simpa [system.start, mutex_atomic.construct] using h
  · intro schedule hdone
    obtain ⟨hexcl, _, hcons⟩ := system.invariant_run schedule _ _
      (system.invariant_start initial_value values)
    generalize (system.start initial_value values).run schedule = sys at hdone hexcl hcons
    obtain ⟨⟨m, d⟩, threads⟩ := sys
    simp only [system.all_returned] at hdone
    simp only [system.not_critical_of_returned threads hdone] at hexcl
    have hm : m = false := by
      cases m
      · rfl
      · simp at hexcl
    subst hm
    have hret : system.returned_values { shared := { m := false, data := d }, threads := threads }
        = threads.map thread.held := system.returned_values_eq_held threads hdone
    have hmulti : (d ::ₘ (↑(threads.map thread.held) : Multiset T))
        = initial_value ::ₘ (↑values : Multiset T) := hcons
    have hperm : (d :: threads.map thread.held).Perm (initial_value :: values) := by
      rw [← Multiset.coe_eq_coe, ← Multiset.cons_coe, ← Multiset.cons_coe]
      exact hmulti
    refine ⟨?_, ?_, ?_, ?_⟩
    · simp [mutex_atomic.load, mutex_atomic.lock_guard, mutex_atomic.unlock_guard]
    · rw [hret]
      have := hperm.length_eq
      simpa using this
    · rw [hret]
      exact hmulti
    · intro hnodup
      rw [hret]
      exact hperm.nodup_iff.mpr hnodup

theorem exchange_threads_conserve_witness :
    mutex_atomic.load ((system.start 0 [7, 8]).run [0, 1, 0, 0, 1, 0, 1, 1, 1, 1]).shared
        memory_order.seq_cst
      = some (((system.start 0 [7, 8]).run [0, 1, 0, 0, 1, 0, 1, 1, 1, 1]).shared.data,
          ((system.start 0 [7, 8]).run [0, 1, 0, 0, 1, 0, 1, 1, 1, 1]).shared) ∧
    ((system.start 0 [7, 8]).run [0, 1, 0, 0, 1, 0, 1, 1, 1, 1]).returned_values.length
      = [7, 8].length ∧
    (((system.start 0 [7, 8]).run [0, 1, 0, 0, 1, 0, 1, 1, 1, 1]).shared.data ::ₘ
        (↑((system.start 0 [7, 8]).run [0, 1, 0, 0, 1, 0, 1, 1, 1, 1]).returned_values :
          Multiset Nat))
      = 0 ::ₘ (↑[7, 8] : Multiset Nat) ∧
    ((0 :: [7, 8]).Nodup →
      (((system.start 0 [7, 8]).run [0, 1, 0, 0, 1, 0, 1, 1, 1, 1]).shared.data ::
        ((system.start 0 [7, 8]).run [0, 1, 0, 0, 1, 0, 1, 1, 1, 1]).returned_values).Nodup) :=
  (exchange_threads_conserve 0 [7, 8] memory_order.seq_cst).2
    [0, 1, 0, 0, 1, 0, 1, 1, 1, 1] (by decide)

end concurrent
